/-
Verification of the unused-file detector scripts and their destructive
companion scripts.

The repository consists of five small Python scripts:
  * `app/find-unused.py`          — threshold variant of the detector
  * `app/find-truly-unused.py`    — boolean variant of the detector
  * `.to_delete_removed/cleanup_temp_files.py` — hardcoded deletion script
  * `.to_delete_removed/final_batch_move.py`   — file mover with conflict suffixes
  * `temp_consolidation_removed/phase8b_cleanup.py`

This file gives a shallow embedding of their logic.  External effects are
modelled explicitly:
  * the `os.walk` traversal is an input, a list of `(root, filenames)` pairs
    in traversal order (the `dirs` component is never used by the scripts);
  * one invocation of the external text-search tool (`rg`) is an
    `Option (List String)`: `none` models any raised failure (timeout,
    missing binary, exception), `some lines` models the lines of stdout
    after `strip().split('\n')`;
  * the filesystem queried by the destructive scripts is a Boolean
    predicate on paths, and fallibility of `os.remove`/`shutil.rmtree` is a
    second Boolean oracle.

String primitives (substring test, suffix test, path splitting, string
comparison) are defined over `List Char` so that every definition evaluates
inside the kernel; `String` is unpacked with `String.toList` at the
boundary.
-/
import Mathlib

namespace Being

/-! ## String primitives -/

/-- Python's `pat in s` substring test: `pat` occurs contiguously in `s`. -/
def strIn (pat s : String) : Bool :=
  (List.range (s.toList.length + 1)).any (fun i =>
    ((s.toList.drop i).take pat.toList.length) == pat.toList)

/-- Python's `s.endswith(suffix)`. -/
def endswith (s suffix : String) : Bool :=
  s.toList.drop (s.toList.length - suffix.toList.length) == suffix.toList
    && suffix.toList.length ≤ s.toList.length

/-- Split a character list at every occurrence of `c` (Python `split`). -/
def splitOnChar (c : Char) : List Char → List (List Char)
  | [] => [[]]
  | x :: xs =>
    if x == c then [] :: splitOnChar c xs
    else match splitOnChar c xs with
      | [] => [[x]]
      | p :: ps => (x :: p) :: ps

/-- Join character lists with separator `c` (inverse of `splitOnChar`). -/
def joinWithChar (c : Char) : List (List Char) → List Char
  | [] => []
  | [p] => p
  | p :: ps => p ++ c :: joinWithChar c ps

/-- Python string comparison: lexicographic on code points. -/
def charListLe : List Char → List Char → Bool
  | [], _ => true
  | _ :: _, [] => false
  | a :: as, b :: bs =>
    if a.toNat == b.toNat then charListLe as bs
    else decide (a.toNat < b.toNat)

/-- Comparison `a <= b` on Python strings. -/
def pyLe (a b : String) : Bool := charListLe a.toList b.toList

/-- Python's `sorted`: the stable ascending sort; insertion sort is stable,
so it computes the same list. -/
def pySorted (l : List String) : List String :=
  List.insertionSort (fun a b => pyLe a b = true) l

/-- Python `os.path.basename`: the component after the last `/`. -/
def basename (p : String) : String :=
  String.mk ((splitOnChar '/' p.toList).getLastD [])

/-- The first component of `os.path.splitext`: strip the last extension,
where leading dots of the name do not start an extension. -/
def splitext_stem (s : String) : String :=
  let lead := s.toList.takeWhile (fun c => c == '.')
  let rest := s.toList.dropWhile (fun c => c == '.')
  let parts := splitOnChar '.' rest
  if parts.length ≤ 1 then s
  else String.mk (lead ++ joinWithChar '.' parts.dropLast)

/-! ## `app/find-unused.py` (threshold variant) -/

/-- Constant `EXCLUDE_PATTERNS` of `find-unused.py`. -/
def EXCLUDE_PATTERNS : List String :=
  ["index.ts", "index.tsx", ".test.ts", ".test.tsx", ".d.ts", "App.tsx"]

/-- Function `should_check`: a file is analyzed iff no exclusion pattern occurs in its
path (the Python for-loop with early `return False`). -/
def should_check (filepath : String) : Bool :=
  EXCLUDE_PATTERNS.all (fun pattern => !(strIn pattern filepath))

/-- Function `get_all_source_files`: walk the tree (the walk's `(root, filenames)`
pairs are the input, in traversal order), keep `.ts`/`.tsx` files passing
`should_check`, paths formed by `os.path.join`. -/
def get_all_source_files (walk : List (String × List String)) : List String :=
  walk.flatMap (fun rf =>
    rf.2.filterMap (fun filename =>
      if endswith filename ".ts" || endswith filename ".tsx" then
        let filepath := rf.1 ++ "/" ++ filename
        if should_check filepath then some filepath else none
      else none))

/-- Function `count_imports`: the `rg -l` outcome is `none` on any raised failure
(the bare `except: return 0`) and `some outLines` otherwise; the function
counts the non-empty lines of stdout. -/
def count_imports (searchOutcome : Option (List String)) : Nat :=
  match searchOutcome with
  | none => 0
  | some outLines => (outLines.filter (fun line => line != "")).length

/-- Reference count of a candidate file in `main` of `find-unused.py`:
`count_imports(filename_without_ext)`, with the search tool abstracted as an
oracle from the searched base name to its outcome. -/
def ref_count (search : String → Option (List String)) (filepath : String) : Nat :=
  count_imports (search (splitext_stem (basename filepath)))

/-- The `if/elif` categorization chain of `find-unused.py`'s `main`. -/
def categorize_threshold (filepath : String) : String :=
  if strIn "/components/" filepath then "components"
  else if strIn "/screens/" filepath then "screens"
  else if strIn "/services/" filepath then "services"
  else if strIn "/stores/" filepath then "stores"
  else if strIn "/hooks/" filepath then "hooks"
  else if strIn "/types/" filepath then "types"
  else if strIn "/utils/" filepath then "utils"
  else if strIn "/constants/" filepath then "constants"
  else if strIn "/flows/" filepath then "flows"
  else if strIn "/contexts/" filepath then "contexts"
  else if strIn "/navigation/" filepath then "navigation"
  else if strIn "/theme/" filepath then "theme"
  else "other"

/-- The keys of `unused_by_category`, in dict insertion order. -/
def threshold_categories : List String :=
  ["components", "screens", "services", "stores", "hooks", "types", "utils",
   "constants", "flows", "contexts", "navigation", "theme", "other"]

/-- Sequence `sorted(all_files)` in `main`. -/
def sorted_files (walk : List (String × List String)) : List String :=
  pySorted (get_all_source_files walk)

/-- One category list of the report: `main`'s loop appends `filepath` to the
bucket `categorize_threshold filepath` exactly when `ref_count ≤ 1`,
preserving the iteration order of `sorted(all_files)`; the resulting bucket
is the order-preserving filter of that sequence. -/
def unused_by_category (search : String → Option (List String))
    (walk : List (String × List String)) (category : String) : List String :=
  (sorted_files walk).filter (fun filepath =>
    decide (ref_count search filepath ≤ 1) && (categorize_threshold filepath == category))

/-- All files reported by the threshold variant, in report (category, then
per-category) order. -/
def reported_threshold (search : String → Option (List String))
    (walk : List (String × List String)) : List String :=
  threshold_categories.flatMap (unused_by_category search walk)

/-! ## `app/find-truly-unused.py` (boolean variant) -/

/-- Constant `KNOWN_USED` of `find-truly-unused.py`. -/
def KNOWN_USED : List String :=
  ["App.tsx", "CleanRootNavigator.tsx", "CleanTabNavigator.tsx",
   "EveningFlowNavigator.tsx", "MorningFlowNavigator.tsx", "MiddayFlowNavigator.tsx"]

/-- The substring patterns tested by `should_skip`. -/
def SKIP_PATTERNS : List String :=
  [".test.ts", ".test.tsx", ".d.ts", "index.ts", "index.tsx"]

/-- Function `should_skip`: skip when some pattern occurs in the path, or the base
name is a known entry point. -/
def should_skip (filepath : String) : Bool :=
  if SKIP_PATTERNS.any (fun x => strIn x filepath) then true
  else KNOWN_USED.contains (basename filepath)

/-- The walk loop of `find-truly-unused.py`'s `main`: `.ts`/`.tsx` files not
skipped by `should_skip`. -/
def get_all_files_truly (walk : List (String × List String)) : List String :=
  walk.flatMap (fun rf =>
    rf.2.filterMap (fun filename =>
      if endswith filename ".ts" || endswith filename ".tsx" then
        let filepath := rf.1 ++ "/" ++ filename
        if !(should_skip filepath) then some filepath else none
      else none))

/-- A stdout line counts as an external reference for `file_path`:
`if line and file_path not in line`. -/
def external_hit (file_path line : String) : Bool :=
  line != "" && !(strIn file_path line)

/-- Function `search_for_import`: one `Option (List String)` per tried pattern, in
pattern order.  A `none` models the subprocess raising: the `try` block
wraps the whole pattern loop, so the `except` returns `True` ("assume
used").  A `some` with an external hit returns `True`; otherwise the next
pattern is tried; after all patterns, `False`. -/
def search_for_import (file_path : String)
    (outcomes : List (Option (List String))) : Bool :=
  match outcomes with
  | [] => false
  | none :: _ => true
  | some outLines :: rest =>
    if (outLines.filter (external_hit file_path)).isEmpty then
      search_for_import file_path rest
    else true

/-- The `if/elif` categorization chain of `find-truly-unused.py`'s `main`:
the documentation-name test on the file name comes before every
directory-segment test. -/
def categorize_truly (filename filepath : String) : String :=
  if strIn "Guide" filename || strIn "Validation" filename then "documentation"
  else if strIn "/services/" filepath then "services"
  else if strIn "/components/" filepath || strIn "/flows/" filepath then "components"
  else if strIn "/screens/" filepath then "screens"
  else "other"

/-- The keys of `truly_unused`, in dict insertion order. -/
def truly_categories : List String :=
  ["documentation", "services", "components", "screens", "other"]

/-- Sequence `sorted(all_files)` in the boolean variant's `main`. -/
def sorted_files_truly (walk : List (String × List String)) : List String :=
  pySorted (get_all_files_truly walk)

/-- One category list of the boolean variant's report; `outcomes` maps a
candidate's base name to the per-pattern search outcomes.  The loop appends
`filepath` to the bucket `categorize_truly filename filepath` exactly when
`search_for_import` returned `False`, preserving the iteration order of
`sorted(all_files)`. -/
def truly_unused_by_category (outcomes : String → List (Option (List String)))
    (walk : List (String × List String)) (category : String) : List String :=
  (sorted_files_truly walk).filter (fun filepath =>
    !(search_for_import filepath (outcomes (splitext_stem (basename filepath)))) &&
    (categorize_truly (basename filepath) filepath == category))

/-- All files reported by the boolean variant, in report order. -/
def reported_truly (outcomes : String → List (Option (List String)))
    (walk : List (String × List String)) : List String :=
  truly_categories.flatMap (truly_unused_by_category outcomes walk)

/-! ## `.to_delete_removed/cleanup_temp_files.py`

State is the running `count` of removed items together with the list of
printed lines.  `exists0 p` models `os.path.exists(p)`; `remove_ok p`
models whether `os.remove`/`shutil.rmtree` succeeds (its exception text is
abstracted away in the error line). -/

/-- One iteration of either removal loop: if the path exists, attempt the
removal (count and log on success, log the exception on failure), otherwise
log the not-found notice; the messages are the loop's three print strings. -/
def removal_step (exists0 remove_ok : String → Bool) (ok err miss : String)
    (st : Nat × List String) (path : String) : Nat × List String :=
  if exists0 path then
    if remove_ok path then
      (st.1 + 1, st.2 ++ [ok ++ path])
    else
      (st.1, st.2 ++ [err ++ path])
  else
    (st.1, st.2 ++ [miss ++ path])

/-- One iteration of the `files_to_remove` loop. -/
def cleanup_file_step (exists0 remove_ok : String → Bool) :
    (Nat × List String) → String → Nat × List String :=
  removal_step exists0 remove_ok
    "Removed file: " "Error removing file " "File not found: "

/-- One iteration of the `dirs_to_remove` loop. -/
def cleanup_dir_step (exists0 remove_ok : String → Bool) :
    (Nat × List String) → String → Nat × List String :=
  removal_step exists0 remove_ok
    "Removed directory: " "Error removing directory " "Directory not found: "

/-- The whole script body: `count = 0`, the file loop, then the directory
loop; the result is the final count and the printed lines. -/
def run_cleanup (exists0 remove_ok : String → Bool)
    (files dirs : List String) : Nat × List String :=
  dirs.foldl (cleanup_dir_step exists0 remove_ok)
    (files.foldl (cleanup_file_step exists0 remove_ok) (0, []))

/-! ## `.to_delete_removed/final_batch_move.py`

`exists0` models `Path.exists` on the destination filesystem.  A moved
file's destination starts as `consolidation/<name>` where `name = stem ++
suffix`; the `while dest_path.exists()` loop retries
`consolidation/<stem>_<counter><suffix>` with `counter = 1, 2, ...`.  The
loop is embedded with explicit fuel; `none` means the fuel ran out before a
free name was found. -/

/-- Name `consolidation_path / f"{stem}_{counter}{suffix}"`. -/
def conflict_name (consolidation stem suffix : String) (counter : Nat) : String :=
  consolidation ++ "/" ++ stem ++ "_" ++ toString counter ++ suffix

/-- The `while dest_path.exists()` loop: if `dest` exists, retry with the
next counter name. -/
def resolve_dest_loop (exists0 : String → Bool) (consolidation stem suffix : String)
    (dest : String) (counter fuel : Nat) : Option String :=
  match fuel with
  | 0 => none
  | Nat.succ fuel0 =>
    if exists0 dest then
      resolve_dest_loop exists0 consolidation stem suffix
        (conflict_name consolidation stem suffix counter) (counter + 1) fuel0
    else some dest

/-- Destination chosen for one moved file: start from
`consolidation/<stem><suffix>` with `counter = 1`. -/
def resolve_dest (exists0 : String → Bool) (consolidation stem suffix : String)
    (fuel : Nat) : Option String :=
  resolve_dest_loop exists0 consolidation stem suffix
    (consolidation ++ "/" ++ (stem ++ suffix)) 1 fuel

/-! ## Helper lemmas -/

/-- Lemma: `search_for_import` returns `True` exactly when some pattern's invocation
raised, or some pattern's output has an external-reference line. -/
theorem search_for_import_true_iff (fp : String) (outs : List (Option (List String))) :
    search_for_import fp outs = true ↔
      none ∈ outs ∨ ∃ ls : List String, some ls ∈ outs ∧ ∃ l ∈ ls, external_hit fp l = true := by
  induction outs with
  | nil => simp [search_for_import]
  | cons o rest ih =>
    cases o with
    | none => simp [search_for_import]
    | some ls =>
      rw [search_for_import]
      by_cases h : (ls.filter (external_hit fp)).isEmpty
      · rw [if_pos h, ih]
        have hno : ∀ l ∈ ls, ¬ external_hit fp l = true := by
          intro l hl hc
          have hmem : l ∈ ls.filter (external_hit fp) := List.mem_filter.mpr ⟨hl, hc⟩
          rw [List.isEmpty_iff] at h
          rw [h] at hmem
          exact absurd hmem (List.not_mem_nil l)
        constructor
        · rintro (hn | ⟨ls2, hmem, hhit⟩)
          · exact Or.inl (List.mem_cons_of_mem _ hn)
          · exact Or.inr ⟨ls2, List.mem_cons_of_mem _ hmem, hhit⟩
        · rintro (hn | ⟨ls2, hmem, l, hl, hhit⟩)
          · rcases List.mem_cons.mp hn with h2 | h2
            · exact absurd h2 (by simp)
            · exact Or.inl h2
          · rcases List.mem_cons.mp hmem with h2 | h2
            · obtain rfl : ls2 = ls := Option.some.inj h2
              exact absurd hhit (hno l hl)
            · exact Or.inr ⟨ls2, h2, l, hl, hhit⟩
      · rw [if_neg h]
        refine iff_of_true rfl (Or.inr ⟨ls, List.mem_cons_self _ _, ?_⟩)
        rw [List.isEmpty_iff] at h
        obtain ⟨l, hl⟩ := List.exists_mem_of_ne_nil _ h
        obtain ⟨hl1, hl2⟩ := List.mem_filter.mp hl
        exact ⟨l, hl1, hl2⟩

/-- Every file the threshold walker yields passes `should_check`. -/
theorem should_check_of_mem {walk : List (String × List String)} {f : String}
    (hf : f ∈ get_all_source_files walk) : should_check f = true := by
  unfold get_all_source_files at hf
  rw [List.mem_flatMap] at hf
  obtain ⟨rf, _, hmem⟩ := hf
  rw [List.mem_filterMap] at hmem
  obtain ⟨filename, _, heq⟩ := hmem
  split at heq
  · simp only at heq
    split at heq
    · obtain rfl : rf.1 ++ "/" ++ filename = f := Option.some.inj heq
      assumption
    · exact absurd heq (by simp)
  · exact absurd heq (by simp)

/-- Every file the boolean walker yields fails `should_skip`. -/
theorem not_should_skip_of_mem {walk : List (String × List String)} {f : String}
    (hf : f ∈ get_all_files_truly walk) : should_skip f = false := by
  unfold get_all_files_truly at hf
  rw [List.mem_flatMap] at hf
  obtain ⟨rf, _, hmem⟩ := hf
  rw [List.mem_filterMap] at hmem
  obtain ⟨filename, _, heq⟩ := hmem
  split at heq
  · simp only at heq
    split at heq
    · obtain rfl : rf.1 ++ "/" ++ filename = f := Option.some.inj heq
      simp_all
    · exact absurd heq (by simp)
  · exact absurd heq (by simp)

/-- The threshold categorization always lands in one of the report's keys. -/
theorem categorize_threshold_mem (fp : String) :
    categorize_threshold fp ∈ threshold_categories := by
  unfold categorize_threshold
  cases h1 : strIn "/components/" fp
  case true => simp [threshold_categories]
  case false =>
  cases h2 : strIn "/screens/" fp
  case true => simp [threshold_categories]
  case false =>
  cases h3 : strIn "/services/" fp
  case true => simp [threshold_categories]
  case false =>
  cases h4 : strIn "/stores/" fp
  case true => simp [threshold_categories]
  case false =>
  cases h5 : strIn "/hooks/" fp
  case true => simp [threshold_categories]
  case false =>
  cases h6 : strIn "/types/" fp
  case true => simp [threshold_categories]
  case false =>
  cases h7 : strIn "/utils/" fp
  case true => simp [threshold_categories]
  case false =>
  cases h8 : strIn "/constants/" fp
  case true => simp [threshold_categories]
  case false =>
  cases h9 : strIn "/flows/" fp
  case true => simp [threshold_categories]
  case false =>
  cases h10 : strIn "/contexts/" fp
  case true => simp [threshold_categories]
  case false =>
  cases h11 : strIn "/navigation/" fp
  case true => simp [threshold_categories]
  case false =>
  cases h12 : strIn "/theme/" fp
  case true => simp [threshold_categories]
  case false => simp [threshold_categories]

/-- The boolean-variant categorization always lands in one of the report's
keys. -/
theorem categorize_truly_mem (fn fp : String) :
    categorize_truly fn fp ∈ truly_categories := by
  unfold categorize_truly
  cases h1 : strIn "Guide" fn || strIn "Validation" fn
  case true => simp [truly_categories]
  case false =>
  cases h2 : strIn "/services/" fp
  case true => simp [truly_categories]
  case false =>
  cases h3 : strIn "/components/" fp || strIn "/flows/" fp
  case true => simp [truly_categories]
  case false =>
  cases h4 : strIn "/screens/" fp
  case true => simp [truly_categories]
  case false => simp [truly_categories]

/-- Membership in a threshold-report bucket. -/
theorem mem_unused_by_category {search : String → Option (List String)}
    {walk : List (String × List String)} {c f : String} :
    f ∈ unused_by_category search walk c ↔
      f ∈ get_all_source_files walk ∧ ref_count search f ≤ 1 ∧
        categorize_threshold f = c := by
  unfold unused_by_category sorted_files pySorted
  rw [List.mem_filter, List.mem_insertionSort]
  simp [and_assoc]

/-- Membership in a boolean-variant report bucket. -/
theorem mem_truly_unused_by_category {outcomes : String → List (Option (List String))}
    {walk : List (String × List String)} {c f : String} :
    f ∈ truly_unused_by_category outcomes walk c ↔
      f ∈ get_all_files_truly walk ∧
        search_for_import f (outcomes (splitext_stem (basename f))) = false ∧
        categorize_truly (basename f) f = c := by
  unfold truly_unused_by_category sorted_files_truly pySorted
  rw [List.mem_filter, List.mem_insertionSort]
  simp [and_assoc, Bool.not_eq_true']

/-- Unfolding equation for `charListLe` on two cons cells. -/
theorem charListLe_cons (a b : Char) (as bs : List Char) :
    charListLe (a :: as) (b :: bs) =
      if a.toNat == b.toNat then charListLe as bs
      else decide (a.toNat < b.toNat) := rfl

/-- Totality of the Python string comparison on character lists. -/
theorem charListLe_total : ∀ as bs : List Char,
    charListLe as bs = true ∨ charListLe bs as = true := by
  intro as
  induction as with
  | nil => intro bs; left; rfl
  | cons a as ih =>
    intro bs
    cases bs with
    | nil => right; rfl
    | cons b bs =>
      rw [charListLe_cons, charListLe_cons]
      by_cases h : a.toNat = b.toNat
      · rw [if_pos (by simpa using h), if_pos (by simp [h])]
        exact ih bs
      · rw [if_neg (by simpa using h), if_neg (by simp; omega)]
        simp only [decide_eq_true_eq]
        omega

/-- Transitivity of the Python string comparison on character lists. -/
theorem charListLe_trans : ∀ as bs cs : List Char,
    charListLe as bs = true → charListLe bs cs = true → charListLe as cs = true := by
  intro as
  induction as with
  | nil => intro bs cs _ _; rfl
  | cons a as ih =>
    intro bs cs h1 h2
    cases bs with
    | nil => exact absurd h1 Bool.false_ne_true
    | cons b bs =>
      cases cs with
      | nil => exact absurd h2 Bool.false_ne_true
      | cons c cs =>
        rw [charListLe_cons] at h1 h2 ⊢
        by_cases hab : a.toNat = b.toNat <;> by_cases hbc : b.toNat = c.toNat
        · rw [if_pos (by simpa using hab)] at h1
          rw [if_pos (by simpa using hbc)] at h2
          rw [if_pos (by simp [hab, hbc])]
          exact ih bs cs h1 h2
        · rw [if_neg (by simpa using hbc)] at h2
          simp only [decide_eq_true_eq] at h2
          rw [if_neg (by simp; omega)]
          simp only [decide_eq_true_eq]
          omega
        · rw [if_neg (by simpa using hab)] at h1
          simp only [decide_eq_true_eq] at h1
          rw [if_neg (by simp; omega)]
          simp only [decide_eq_true_eq]
          omega
        · rw [if_neg (by simpa using hab)] at h1
          rw [if_neg (by simpa using hbc)] at h2
          simp only [decide_eq_true_eq] at h1 h2
          rw [if_neg (by simp; omega)]
          simp only [decide_eq_true_eq]
          omega

instance pyLe_isTotal : IsTotal String (fun a b => pyLe a b = true) :=
  ⟨fun a b => charListLe_total a.toList b.toList⟩

instance pyLe_isTrans : IsTrans String (fun a b => pyLe a b = true) :=
  ⟨fun a b c => charListLe_trans a.toList b.toList c.toList⟩

/-- Output of `pySorted` is ascending for the Python string order. -/
theorem pySorted_pairwise (l : List String) :
    List.Pairwise (fun a b => pyLe a b = true) (pySorted l) :=
  List.sorted_insertionSort _ l

/-! ## Claims -/

/-- C1: in the threshold variant, a candidate file is reported as
potentially unused iff its reference count is at most 1; in particular a
candidate whose base name is matched in at least two files (count > 1) is
never reported. -/
theorem C1_reported_iff_refcount_le_one (search : String → Option (List String))
    (walk : List (String × List String)) (f : String) :
    f ∈ reported_threshold search walk ↔
      f ∈ get_all_source_files walk ∧ ref_count search f ≤ 1 := by
  unfold reported_threshold
  rw [List.mem_flatMap]
  constructor
  · rintro ⟨c, _, hf⟩
    have h := mem_unused_by_category.mp hf
    exact ⟨h.1, h.2.1⟩
  · rintro ⟨h1, h2⟩
    exact ⟨categorize_threshold f, categorize_threshold_mem f,
      mem_unused_by_category.mpr ⟨h1, h2, rfl⟩⟩

/-- C2: on any failure of the external search, the boolean variant's
`search_for_import` defaults to `True` ("assume used") while the threshold
variant's `count_imports` defaults to `0` references: opposite defaults. -/
theorem C2_error_defaults_opposite (fp : String)
    (outs : List (Option (List String))) :
    count_imports none = 0 ∧ (none ∈ outs → search_for_import fp outs = true) :=
  ⟨rfl, fun hn => (search_for_import_true_iff fp outs).mpr (Or.inl hn)⟩

/-- Witness for C2 at a concrete failing invocation. -/
theorem C2_error_defaults_opposite_witness :
    count_imports none = 0 ∧ search_for_import "src/Foo.ts" [none] = true :=
  ⟨(C2_error_defaults_opposite "src/Foo.ts" [none]).1,
   (C2_error_defaults_opposite "src/Foo.ts" [none]).2 (by decide)⟩

/-- C3: the tree walkers never output an excluded file: no exclusion
pattern occurs as a substring of an output path, and in the boolean variant
the output's base name is not in the `KNOWN_USED` entry-point list. -/
theorem C3_walker_never_outputs_excluded (walk : List (String × List String))
    (f : String) :
    (f ∈ get_all_source_files walk → ∀ p ∈ EXCLUDE_PATTERNS, strIn p f = false) ∧
    (f ∈ get_all_files_truly walk →
      (∀ p ∈ SKIP_PATTERNS, strIn p f = false) ∧ basename f ∉ KNOWN_USED) := by
  constructor
  · intro hf p hp
    have h := should_check_of_mem hf
    unfold should_check at h
    rw [List.all_eq_true] at h
    simpa using h p hp
  · intro hf
    have h := not_should_skip_of_mem hf
    unfold should_skip at h
    split at h
    · exact absurd h (by simp)
    · rename_i hany
      refine ⟨?_, by simpa using h⟩
      intro p hp
      rw [Bool.eq_false_iff]
      intro hc
      exact hany (List.any_eq_true.mpr ⟨p, hp, hc⟩)

/-- Witness for C3 at a concrete walk. -/
theorem C3_walker_never_outputs_excluded_witness :
    strIn "index.ts" "src/Foo.ts" = false ∧ basename "src/Foo.ts" ∉ KNOWN_USED :=
  ⟨(C3_walker_never_outputs_excluded [("src", ["Foo.ts"])] "src/Foo.ts").1
      (by decide) "index.ts" (by decide),
   ((C3_walker_never_outputs_excluded [("src", ["Foo.ts"])] "src/Foo.ts").2
      (by decide)).2⟩

/-- C5 counterexample: with traversal order `src/b.ts` before `src/a.ts`,
the reported bucket lists `src/a.ts` first: the ordering is not the
directory-walk order, because both variants sort the walk output. -/
theorem C5_counterexample :
    get_all_source_files [("src", ["b.ts", "a.ts"])] = ["src/b.ts", "src/a.ts"] ∧
    unused_by_category (fun _ => some []) [("src", ["b.ts", "a.ts"])] "other"
      = ["src/a.ts", "src/b.ts"] ∧
    (["src/a.ts", "src/b.ts"] : List String) ≠ ["src/b.ts", "src/a.ts"] :=
  ⟨by decide, by decide, by decide⟩

/-- C5 amended: each category list of either report is ordered by ascending
Python string comparison of paths (the walker output is passed through
`sorted` before scanning), not by the directory-walk order and not by any
ranking. -/
theorem C5_amended_buckets_sorted (search : String → Option (List String))
    (outcomes : String → List (Option (List String)))
    (walk : List (String × List String)) (c : String) :
    List.Pairwise (fun a b => pyLe a b = true) (unused_by_category search walk c) ∧
    List.Pairwise (fun a b => pyLe a b = true)
      (truly_unused_by_category outcomes walk c) :=
  ⟨List.Pairwise.filter _ (pySorted_pairwise _),
   List.Pairwise.filter _ (pySorted_pairwise _)⟩

/-- C6 counterexample: the threshold variant's `count_imports` does not
exclude a matching line that carries the candidate's own path: a search
output consisting of one line containing the candidate's path yields count
1, where the self-filtered count is 0. -/
theorem C6_counterexample :
    count_imports (some ["src/components/Foo.ts"]) = 1 ∧
    strIn "src/components/Foo.ts" "src/components/Foo.ts" = true ∧
    (["src/components/Foo.ts"].filter
      (fun l => !(strIn "src/components/Foo.ts" l))).length = 0 :=
  ⟨rfl, by decide, by decide⟩

/-- C6 amended: only the boolean variant filters out matching lines
containing the candidate's own path: absent failures, `search_for_import`
returns `True` exactly when some pattern produced a non-empty line not
containing the candidate's path, while `count_imports` counts every
non-empty line with no self filter. -/
theorem C6_amended_self_filter_boolean_only (fp : String)
    (outs : List (Option (List String))) (hok : none ∉ outs) :
    (search_for_import fp outs = true ↔
      ∃ ls : List String, some ls ∈ outs ∧ ∃ l ∈ ls,
        (l != "" && !(strIn fp l)) = true) ∧
    ∀ outLines : List String,
      count_imports (some outLines) = (outLines.filter (fun l => l != "")).length := by
  constructor
  · rw [search_for_import_true_iff]
    unfold external_hit
    constructor
    · rintro (hn | h)
      · exact absurd hn hok
      · exact h
    · exact Or.inr
  · intro _; rfl

/-- Witness for the amended C6 at concrete search outputs. -/
theorem C6_amended_self_filter_boolean_only_witness :
    search_for_import "zzz" [some ["a: import b"]] = true ∧
    count_imports (some ["src/Foo.ts"]) = 1 := by
  have h := C6_amended_self_filter_boolean_only "zzz" [some ["a: import b"]] (by decide)
  exact ⟨h.1.mpr ⟨["a: import b"], by decide, "a: import b", by decide, by decide⟩,
    h.2 ["src/Foo.ts"]⟩

/-- C8: when the root directory does not exist, `os.walk` yields no
triples; both walkers then yield no candidates and every category of either
report is empty, with no failure. -/
theorem C8_missing_root_empty_report :
    get_all_source_files [] = [] ∧ get_all_files_truly [] = [] ∧
    (∀ search c, unused_by_category search [] c = []) ∧
    (∀ outcomes c, truly_unused_by_category outcomes [] c = []) ∧
    (∀ search, reported_threshold search [] = []) ∧
    (∀ outcomes, reported_truly outcomes [] = []) :=
  ⟨rfl, rfl, fun _ _ => rfl, fun _ _ => rfl, fun _ => rfl, fun _ => rfl⟩

/-- Final count of a removal loop: the number of paths that existed and
were removed successfully. -/
theorem removal_fold_count (ex rm : String → Bool) (ok err miss : String) :
    ∀ (paths : List String) (st : Nat × List String),
      (paths.foldl (removal_step ex rm ok err miss) st).1
        = st.1 + (paths.filter (fun p => ex p && rm p)).length := by
  intro paths
  induction paths with
  | nil => intro st; simp
  | cons p ps ih =>
    intro st
    rw [List.foldl_cons, ih]
    unfold removal_step
    by_cases h1 : ex p = true <;> by_cases h2 : rm p = true <;>
      (simp [h1, h2, List.filter_cons]; try omega)

/-- A removal loop prints exactly one line per path. -/
theorem removal_fold_loglen (ex rm : String → Bool) (ok err miss : String) :
    ∀ (paths : List String) (st : Nat × List String),
      (paths.foldl (removal_step ex rm ok err miss) st).2.length
        = st.2.length + paths.length := by
  intro paths
  induction paths with
  | nil => intro st; simp
  | cons p ps ih =>
    intro st
    rw [List.foldl_cons, ih]
    unfold removal_step
    by_cases h1 : ex p = true <;> by_cases h2 : rm p = true <;>
      (simp [h1, h2]; try omega)

/-- Already-printed lines survive a removal loop. -/
theorem removal_fold_mono (ex rm : String → Bool) (ok err miss : String) :
    ∀ (paths : List String) (st : Nat × List String) (l : String),
      l ∈ st.2 → l ∈ (paths.foldl (removal_step ex rm ok err miss) st).2 := by
  intro paths
  induction paths with
  | nil => intro st l hl; simpa using hl
  | cons p ps ih =>
    intro st l hl
    rw [List.foldl_cons]
    apply ih
    unfold removal_step
    by_cases h1 : ex p = true <;> by_cases h2 : rm p = true <;>
      (simp [h1, h2]; try exact Or.inl hl)

/-- A nonexistent path gets its not-found notice printed. -/
theorem removal_fold_notice (ex rm : String → Bool) (ok err miss : String) :
    ∀ (paths : List String) (st : Nat × List String) (p : String),
      p ∈ paths → ex p = false →
      (miss ++ p) ∈ (paths.foldl (removal_step ex rm ok err miss) st).2 := by
  intro paths
  induction paths with
  | nil => intro st p hp; exact absurd hp (List.not_mem_nil p)
  | cons q ps ih =>
    intro st p hp hex
    rw [List.foldl_cons]
    rcases List.mem_cons.mp hp with rfl | hp2
    · apply removal_fold_mono
      unfold removal_step
      rw [if_neg (by simp [hex])]
      exact List.mem_append_right _ (List.mem_singleton.mpr rfl)
    · exact ih _ p hp2 hex

/-- C4: the threshold variant's counter returns the count of the distinct
matching lines of the search output (the file-listing search emits each
matching file once, hence distinct lines), while the boolean variant
instead returns whether at least one external reference line was found. -/
theorem C4_count_distinct_lines (outLines : List String) (fp : String)
    (outs : List (Option (List String))) :
    (outLines.Nodup →
      count_imports (some outLines) =
        ((outLines.filter (fun l => l != "")).dedup).length) ∧
    ((∀ o ∈ outs, o ≠ none) →
      (search_for_import fp outs = true ↔
        ∃ ls : List String, some ls ∈ outs ∧ ∃ l ∈ ls, external_hit fp l = true)) := by
  constructor
  · intro hnd
    rw [List.Nodup.dedup (List.Nodup.filter _ hnd)]
    rfl
  · intro hok
    rw [search_for_import_true_iff]
    constructor
    · rintro (hn | h)
      · exact absurd rfl (hok none hn)
      · exact h
    · exact Or.inr

/-- Witness for C4 at concrete search outputs. -/
theorem C4_count_distinct_lines_witness :
    count_imports (some ["src/a.ts", "src/b.ts"]) =
      (((["src/a.ts", "src/b.ts"] : List String).filter (fun l => l != "")).dedup).length ∧
    (search_for_import "zzz" [some ["a: import b"]] = true ↔
      ∃ ls : List String, some ls ∈ ([some ["a: import b"]] :
          List (Option (List String))) ∧
        ∃ l ∈ ls, external_hit "zzz" l = true) :=
  ⟨(C4_count_distinct_lines ["src/a.ts", "src/b.ts"] "zzz" [some ["a: import b"]]).1
      (by decide),
   (C4_count_distinct_lines ["src/a.ts", "src/b.ts"] "zzz" [some ["a: import b"]]).2
      (by decide)⟩

/-- C7: categorization is deterministic and total: a file judged unused by
the boolean variant lies in exactly one category bucket; the
documentation-name check ("Guide"/"Validation" in the file name) is decided
before any directory-segment check; a file matching no check falls into
"other"; and the threshold variant's chain likewise assigns exactly one of
its category keys. -/
theorem C7_categorization_total (outcomes : String → List (Option (List String)))
    (walk : List (String × List String)) (f fn fp : String)
    (hf : f ∈ reported_truly outcomes walk) :
    (∃! c, c ∈ truly_categories ∧ f ∈ truly_unused_by_category outcomes walk c) ∧
    ((strIn "Guide" fn || strIn "Validation" fn) = true →
      categorize_truly fn fp = "documentation") ∧
    ((strIn "Guide" fn || strIn "Validation" fn) = false →
      strIn "/services/" fp = false →
      (strIn "/components/" fp || strIn "/flows/" fp) = false →
      strIn "/screens/" fp = false →
      categorize_truly fn fp = "other") ∧
    List.count (categorize_threshold fp) threshold_categories = 1 := by
  refine ⟨?_, ?_, ?_, ?_⟩
  · obtain ⟨c0, _, hfb⟩ := List.mem_flatMap.mp hf
    obtain ⟨hcand, hunused, _⟩ := mem_truly_unused_by_category.mp hfb
    refine ⟨categorize_truly (basename f) f,
      ⟨categorize_truly_mem _ _,
        mem_truly_unused_by_category.mpr ⟨hcand, hunused, rfl⟩⟩, ?_⟩
    rintro c ⟨_, hfc⟩
    exact ((mem_truly_unused_by_category.mp hfc).2.2).symm
  · intro h
    unfold categorize_truly
    rw [if_pos h]
  · intro h1 h2 h3 h4
    unfold categorize_truly
    rw [if_neg (by simp [h1]), if_neg (by simp [h2]), if_neg (by simp [h3]),
      if_neg (by simp [h4])]
  · exact List.count_eq_one_of_mem (by decide) (categorize_threshold_mem fp)

/-- Witness for C7 at a concrete reported file. -/
theorem C7_categorization_total_witness :
    (∃! c, c ∈ truly_categories ∧
      "src/OrphanGuide.ts" ∈ truly_unused_by_category
        (fun _ => [some [], some [], some [], some []])
        [("src", ["OrphanGuide.ts"])] c) ∧
    categorize_truly "AGuide.ts" "src/services/AGuide.ts" = "documentation" := by
  have h := C7_categorization_total (fun _ => [some [], some [], some [], some []])
    [("src", ["OrphanGuide.ts"])] "src/OrphanGuide.ts" "AGuide.ts"
    "src/services/AGuide.ts" (by decide)
  exact ⟨h.1, h.2.1 (by decide)⟩

/-- C9: in the cleanup script, a listed path that does not exist yields a
printed not-found notice, no failure, no count increment, and the loop
continues: every listed path produces exactly one log line, and the final
count is exactly the number of successful removals. -/
theorem C9_missing_path_skipped (ex rm : String → Bool) (files dirs : List String) :
    (run_cleanup ex rm files dirs).1
        = (files.filter (fun p => ex p && rm p)).length
          + (dirs.filter (fun p => ex p && rm p)).length ∧
    (run_cleanup ex rm files dirs).2.length = files.length + dirs.length ∧
    (∀ p ∈ files, ex p = false →
      ("File not found: " ++ p) ∈ (run_cleanup ex rm files dirs).2) ∧
    (∀ p ∈ dirs, ex p = false →
      ("Directory not found: " ++ p) ∈ (run_cleanup ex rm files dirs).2) := by
  unfold run_cleanup cleanup_file_step cleanup_dir_step
  refine ⟨?_, ?_, ?_, ?_⟩
  · rw [removal_fold_count, removal_fold_count]
    simp
  · rw [removal_fold_loglen, removal_fold_loglen]
    simp
  · intro p hp hex
    exact removal_fold_mono _ _ _ _ _ _ _ _ (removal_fold_notice _ _ _ _ _ _ _ p hp hex)
  · intro p hp hex
    exact removal_fold_notice _ _ _ _ _ _ _ p hp hex

/-- Witness for C9 at a concrete path list with one missing file. -/
theorem C9_missing_path_skipped_witness :
    (run_cleanup (fun p => p == "a") (fun _ => true) ["a", "b"] ["d"]).1 = 1 ∧
    ("File not found: " ++ "b")
      ∈ (run_cleanup (fun p => p == "a") (fun _ => true) ["a", "b"] ["d"]).2 := by
  have h := C9_missing_path_skipped (fun p => p == "a") (fun _ => true) ["a", "b"] ["d"]
  refine ⟨?_, h.2.2.1 "b" (by decide) (by decide)⟩
  rw [h.1]
  decide

/-- Unfolding equation for one iteration of the conflict-name loop. -/
theorem resolve_dest_loop_succ (exists0 : String → Bool)
    (consolidation stem suffix dest : String) (counter fuel : Nat) :
    resolve_dest_loop exists0 consolidation stem suffix dest counter (fuel + 1) =
      if exists0 dest = true then
        resolve_dest_loop exists0 consolidation stem suffix
          (conflict_name consolidation stem suffix counter) (counter + 1) fuel
      else some dest := rfl

/-- When the conflict-name loop returns a destination, that destination does
not exist, and it is either the starting name or the first free counter
name. -/
theorem resolve_dest_loop_spec (exists0 : String → Bool)
    (consolidation stem suffix : String) :
    ∀ (fuel counter : Nat) (dest d : String),
      resolve_dest_loop exists0 consolidation stem suffix dest counter fuel = some d →
      exists0 d = false ∧
        (d = dest ∨
          (exists0 dest = true ∧
            ∃ k, counter ≤ k ∧ d = conflict_name consolidation stem suffix k ∧
              ∀ j, counter ≤ j → j < k →
                exists0 (conflict_name consolidation stem suffix j) = true)) := by
  intro fuel
  induction fuel with
  | zero =>
    intro counter dest d h
    exact absurd h (by rw [show resolve_dest_loop exists0 consolidation stem suffix
      dest counter 0 = none from rfl]; simp)
  | succ fuel ih =>
    intro counter dest d h
    rw [resolve_dest_loop_succ] at h
    by_cases hex : exists0 dest = true
    · rw [if_pos hex] at h
      obtain ⟨hd, hcase⟩ := ih (counter + 1) _ d h
      refine ⟨hd, Or.inr ⟨hex, ?_⟩⟩
      rcases hcase with rfl | ⟨hex2, k, hk, rfl, hall⟩
      · exact ⟨counter, Nat.le_refl _, rfl,
          fun j hj1 hj2 => absurd (Nat.lt_of_le_of_lt hj1 hj2) (Nat.lt_irrefl _)⟩
      · refine ⟨k, Nat.le_of_succ_le hk, rfl, ?_⟩
        intro j hj1 hj2
        rcases Nat.eq_or_lt_of_le hj1 with rfl | hj1'
        · exact hex2
        · exact hall j hj1' hj2
    · rw [if_neg hex] at h
      obtain rfl := Option.some.inj h
      exact ⟨Bool.eq_false_iff.mpr hex, Or.inl rfl⟩

/-- The conflict-name loop terminates once a free counter name exists:
fuel `n + 2` suffices when counter name `counter + n` is free. -/
theorem resolve_dest_loop_terminates (exists0 : String → Bool)
    (consolidation stem suffix : String) :
    ∀ (n counter : Nat) (dest : String),
      exists0 (conflict_name consolidation stem suffix (counter + n)) = false →
      ∃ d, resolve_dest_loop exists0 consolidation stem suffix dest counter (n + 2)
        = some d := by
  intro n
  induction n with
  | zero =>
    intro counter dest hfree
    by_cases hex : exists0 dest = true
    · refine ⟨conflict_name consolidation stem suffix counter, ?_⟩
      rw [resolve_dest_loop_succ, if_pos hex, resolve_dest_loop_succ,
        if_neg (by simpa using hfree)]
    · exact ⟨dest, by rw [show (0 + 2 : Nat) = 1 + 1 from rfl,
        resolve_dest_loop_succ, if_neg hex]⟩
  | succ n ih =>
    intro counter dest hfree
    by_cases hex : exists0 dest = true
    · obtain ⟨d, hd⟩ := ih (counter + 1) (conflict_name consolidation stem suffix counter)
        (by rw [show counter + 1 + n = counter + (n + 1) from by omega]; exact hfree)
      refine ⟨d, ?_⟩
      rw [show n + 1 + 2 = (n + 2) + 1 from by omega, resolve_dest_loop_succ, if_pos hex]
      exact hd
    · exact ⟨dest, by rw [show n + 1 + 2 = (n + 2) + 1 from by omega,
        resolve_dest_loop_succ, if_neg hex]⟩

/-- C10: the file mover never overwrites: whenever the `while` loop settles
on a destination, that destination did not exist, and it is the plain
`consolidation/<stem><suffix>` name when that was free, otherwise the
conflict name with the smallest counter `k ≥ 1` whose path does not exist;
the loop does settle (given some counter name `1 + j` is free, fuel `j + 2`
suffices). -/
theorem C10_mover_fresh_destination (exists0 : String → Bool)
    (consolidation stem suffix : String) (j : Nat)
    (hj : exists0 (conflict_name consolidation stem suffix (1 + j)) = false) :
    (∃ d, resolve_dest exists0 consolidation stem suffix (j + 2) = some d) ∧
    ∀ fuel d, resolve_dest exists0 consolidation stem suffix fuel = some d →
      exists0 d = false ∧
        (d = consolidation ++ "/" ++ (stem ++ suffix) ∨
          (exists0 (consolidation ++ "/" ++ (stem ++ suffix)) = true ∧
            ∃ k, 1 ≤ k ∧ d = conflict_name consolidation stem suffix k ∧
              ∀ i, 1 ≤ i → i < k →
                exists0 (conflict_name consolidation stem suffix i) = true)) := by
  constructor
  · exact resolve_dest_loop_terminates exists0 consolidation stem suffix j 1 _ hj
  · intro fuel d h
    exact resolve_dest_loop_spec exists0 consolidation stem suffix fuel 1 _ d h

/-- Witness for C10: with `PHASE_X.md` and `PHASE_X_1.md` already present,
the mover settles on the fresh `PHASE_X_2.md`. -/
theorem C10_mover_fresh_destination_witness :
    resolve_dest
      (fun s => (["temp_consolidation/PHASE_X.md",
        "temp_consolidation/PHASE_X_1.md"] : List String).contains s)
      "temp_consolidation" "PHASE_X" ".md" 3 = some "temp_consolidation/PHASE_X_2.md" ∧
    (fun s => (["temp_consolidation/PHASE_X.md",
        "temp_consolidation/PHASE_X_1.md"] : List String).contains s)
      "temp_consolidation/PHASE_X_2.md" = false := by
  have h := C10_mover_fresh_destination
    (fun s => (["temp_consolidation/PHASE_X.md",
      "temp_consolidation/PHASE_X_1.md"] : List String).contains s)
    "temp_consolidation" "PHASE_X" ".md" 1 (by decide)
  obtain ⟨d, hd⟩ := h.1
  have hval : d = "temp_consolidation/PHASE_X_2.md" := by
    have := hd
    rw [show (1 + 2 : Nat) = 3 from rfl] at this
    have hcalc : resolve_dest
        (fun s => (["temp_consolidation/PHASE_X.md",
          "temp_consolidation/PHASE_X_1.md"] : List String).contains s)
        "temp_consolidation" "PHASE_X" ".md" 3
        = some "temp_consolidation/PHASE_X_2.md" := by decide
    rw [hcalc] at this
    exact (Option.some.inj this).symm
  subst hval
  refine ⟨by rw [show (3 : Nat) = 1 + 2 from rfl]; exact hd, (h.2 _ _ hd).1⟩

end Being
